import Mathlib

/-!
Verification of the object-creation tool of `src/src/tiled/createobjecttool.cpp`
(class `CreateObjectTool`).

The embedding follows the source file function by function.  External
collaborators (the renderer's `screenToPixelCoords`, the `SnapHelper` snap
policy, and the subclass hook `createNewMapObject`) live outside this file's
repository slice and are modelled as abstract functions carried in an `Env`
structure.  The document's undo stack (`QUndoStack::push` together with the
`AddMapObject` / `AddTileset` commands) is likewise outside the slice and is
modelled from the spec.

Coordinates (`QPointF`) are modelled with integer components: none of the
verified properties depends on fractional positions, only on the data flow of
positions through the tool.
-/

set_option genSizeOfSpec false
set_option genInjectivity false

/-- A point (`QPointF`); integer components stand in for the real-valued ones. -/
structure Point where
  x : Int
  y : Int
deriving DecidableEq

instance : Sub Point := ⟨fun a b => ⟨a.x - b.x, a.y - b.y⟩⟩

/-- Keyboard modifier state (`Qt::KeyboardModifiers`), abstract. -/
abbrev Modifiers := Nat

/-- A map object (`MapObject`): its position and, when the object carries a
tile, the tileset referenced by its cell (`cell().tileset()`), identified by a
number.  `none` models a null tileset pointer. -/
structure MapObject where
  pos : Point
  cellTileset : Option Nat
deriving DecidableEq

/-- An object layer (`ObjectGroup`): its object list, display color, offset,
and the visibility / lock flags queried by the tool (`isVisible`,
`isUnlocked`). -/
structure ObjectGroup where
  objects : List MapObject
  color : Nat
  offset : Point
  visible : Bool
  unlocked : Bool

/-- `Layer::totalOffset()`: the layer's offset including ancestors.  Parent
groups are outside the verified slice, so the stored offset is taken to be the
total one. -/
def ObjectGroup.totalOffset (g : ObjectGroup) : Point := g.offset

/-- The composite undo command built by `finishNewMapObject`: an
`AddMapObject(mapDocument, objectGroup, newMapObject)` with, optionally, a
nested `AddTileset` child command for one tileset. -/
structure UndoCommand where
  groupIdx : Nat
  obj : MapObject
  addTilesetChild : Option Nat

/-- The persistent document (`MapDocument`): its object layers, the index of
the currently active layer (if any), its tileset collection, undo history and
object selection. -/
structure MapDocument where
  objectGroups : List ObjectGroup
  current : Option Nat
  tilesets : List Nat
  undoStack : List UndoCommand
  selectedObjects : List MapObject

/-- `AbstractObjectTool::currentObjectGroup()`: the currently active layer as
an object group, or null when there is no such layer.  Returned together with
its index so the commit can address the layer inside the document. -/
def MapDocument.currentObjectGroup (d : MapDocument) : Option (Nat × ObjectGroup) :=
  match d.current with
  | none => none
  | some i =>
    match d.objectGroups[i]? with
    | none => none
    | some g => some (i, g)

/-- Replace the element at an index by applying a function, leaving the list
unchanged when the index is out of range. -/
def updateAt {α : Type} (l : List α) (i : Nat) (f : α → α) : List α :=
  match l, i with
  | [], _ => []
  | a :: as, 0 => f a :: as
  | a :: as, n + 1 => a :: updateAt as n f

/-- External collaborators of the tool, abstract in the embedding:
`MapRenderer::screenToPixelCoords`, the `SnapHelper` snap policy (which also
consults the renderer, fixed here), and the virtual subclass hook
`createNewMapObject` (`none` models the hook declining creation). -/
structure Env where
  screenToPixelCoords : Point → Point
  snap : Modifiers → Point → Point
  createNewMapObject : Option MapObject

/-- The tool's own state: `mNewMapObjectItem` (the visual proxy, holding the
pending map object; `none` models the null pointer), `mNewMapObjectGroup`
(the staging group owned by the tool), and the scene position of
`mObjectGroupItem`. -/
structure ToolState where
  mNewMapObjectItem : Option MapObject
  mNewMapObjectGroup : ObjectGroup
  mObjectGroupItemPos : Point

/-- The tool as built by the constructor: null item, empty staging group. -/
def initialTool : ToolState :=
  { mNewMapObjectItem := none
    mNewMapObjectGroup :=
      { objects := [], color := 0, offset := ⟨0, 0⟩, visible := true, unlocked := true }
    mObjectGroupItemPos := ⟨0, 0⟩ }

/-- `CreateObjectTool::startNewMapObject` (lines 155-179).  The leading
`Q_ASSERT(!mNewMapObjectItem)` aborts a debug build before any side effect;
it is modelled as returning `false` with the state unchanged.  Otherwise the
function refuses a locked layer, asks the subclass hook for a new object
(refusing when it declines), positions the object, adds it to the staging
group, copies the target layer's color and total offset onto the staging
group, repositions the group item and creates the visual proxy. -/
def startNewMapObject (env : Env) (pos : Point) (objectGroup : ObjectGroup)
    (t : ToolState) : Bool × ToolState :=
  if t.mNewMapObjectItem.isSome then (false, t)
  else if !objectGroup.unlocked then (false, t)
  else
    match env.createNewMapObject with
    | none => (false, t)
    | some newObj =>
      let newMapObject := { newObj with pos := pos }
      let g :=
        { t.mNewMapObjectGroup with
            objects := t.mNewMapObjectGroup.objects ++ [newMapObject]
            color := objectGroup.color
            offset := objectGroup.totalOffset }
      (true,
        { mNewMapObjectItem := some newMapObject
          mNewMapObjectGroup := g
          mObjectGroupItemPos := g.offset })

/-- `CreateObjectTool::clearNewMapObjectItem` (lines 184-196): removes the
pending object from the staging group, deletes the visual proxy and returns
the object.  The `Q_ASSERT(mNewMapObjectItem)` (debug abort) is modelled as
`none`. -/
def clearNewMapObjectItem (t : ToolState) : Option (MapObject × ToolState) :=
  match t.mNewMapObjectItem with
  | none => none
  | some obj =>
    some (obj,
      { t with
          mNewMapObjectItem := none
          mNewMapObjectGroup :=
            { t.mNewMapObjectGroup with
                objects := t.mNewMapObjectGroup.objects.erase obj } })

/-- `CreateObjectTool::cancelNewMapObject` (lines 198-202): clears the item
and destroys the returned object. -/
def cancelNewMapObject (t : ToolState) : ToolState :=
  match clearNewMapObjectItem t with
  | none => t
  | some (_, t1) => t1

/-- Modelled from the spec: `QUndoStack::push` together with the execution of
the composite `AddMapObject` command and its optional nested `AddTileset`
child (`addremovemapobject.cpp` and `addremovetileset.cpp` are outside the
verified slice).  Pushing appends exactly one entry to the history and
executes the composite: the nested tileset addition first (the tileset is
added to the map before the object), then the insertion of the object into
the target group. -/
def pushCommand (d : MapDocument) (c : UndoCommand) : MapDocument :=
  let d1 :=
    match c.addTilesetChild with
    | some ts => { d with tilesets := d.tilesets ++ [ts] }
    | none => d
  let d2 :=
    { d1 with
        objectGroups :=
          updateAt d1.objectGroups c.groupIdx
            (fun g => { g with objects := g.objects ++ [c.obj] }) }
  { d2 with undoStack := d2.undoStack ++ [c] }

/-- `CreateObjectTool::finishNewMapObject` (lines 204-231).  The leading
`Q_ASSERT(mNewMapObjectItem)` is modelled as a no-op result.  The current
object group is re-resolved fresh; when it is null the function falls back to
`cancelNewMapObject`.  Otherwise it clears the item, builds the
`AddMapObject` command, nests an `AddTileset` child when the object's cell
references a tileset not yet contained in the map's tilesets, pushes the
composite, and selects the new object. -/
def finishNewMapObject (t : ToolState) (d : MapDocument) :
    ToolState × MapDocument :=
  match t.mNewMapObjectItem with
  | none => (t, d)
  | some _ =>
    match d.currentObjectGroup with
    | none => (cancelNewMapObject t, d)
    | some (gi, _) =>
      match clearNewMapObjectItem t with
      | none => (t, d)
      | some (newMapObject, t1) =>
        let addObjectCommand : UndoCommand :=
          { groupIdx := gi, obj := newMapObject
            addTilesetChild :=
              match newMapObject.cellTileset with
              | some ts => if d.tilesets.contains ts then none else some ts
              | none => none }
        let d1 := pushCommand d addObjectCommand
        let d2 := { d1 with selectedObjects := [newMapObject] }
        (t1, d2)

/-- `MapObject::setPosition` on the pending object followed by
`MapObjectItem::syncWithMapObject` (lines 244-245).  The C++ object is shared
between the item and the staging group, so the positional update is mirrored
into the group's object list (`List.replace` of the old value by the new). -/
def setPendingPosition (t : ToolState) (p : Point) : ToolState :=
  match t.mNewMapObjectItem with
  | none => t
  | some obj =>
    let obj2 := { obj with pos := p }
    { t with
        mNewMapObjectItem := some obj2
        mNewMapObjectGroup :=
          { t.mNewMapObjectGroup with
              objects := t.mNewMapObjectGroup.objects.replace obj obj2 } }

/-- `CreateObjectTool::mouseMovedWhileCreatingObject` (lines 237-246):
recomputes the pending object's position as the snapped inverse screen
transform of the given scene position. -/
def mouseMovedWhileCreatingObject (env : Env) (pos : Point) (modifiers : Modifiers)
    (t : ToolState) : ToolState :=
  setPendingPosition t (env.snap modifiers (env.screenToPixelCoords pos))

/-- Mouse buttons (`Qt::MouseButton`); `middle` stands for any button other
than left and right. -/
inductive Button where
  | left
  | right
  | middle
deriving DecidableEq

/-- Keys handled by `keyPressed`; `other` covers every remaining key code. -/
inductive Key where
  | enter
  | ret
  | escape
  | other (code : Nat)

/-- The pointer / key events dispatched to the tool by the scene, plus
`setCurrentLayer`, which models the active layer changing between events
(e.g. the user switching layers mid-placement); the latter touches only the
document's `current` field. -/
inductive Event where
  | mousePress (pos : Point) (button : Button) (modifiers : Modifiers)
  | mouseMove (pos : Point) (modifiers : Modifiers)
  | mouseRelease (pos : Point) (button : Button)
  | keyPress (k : Key)
  | deactivate
  | setCurrentLayer (i : Option Nat)

/-- Outcome of handling one event: the new tool state and document, whether
the event was passed on to the `AbstractObjectTool` base handler, and whether
the tool manager was asked to switch to the object selection tool. -/
structure StepResult where
  tool : ToolState
  doc : MapDocument
  delegated : Bool
  toolSwitched : Bool

/-- A result that leaves the tool and document unchanged. -/
def unchanged (t : ToolState) (d : MapDocument) (delegated : Bool) : StepResult :=
  { tool := t, doc := d, delegated := delegated, toolSwitched := false }

/-- `CreateObjectTool::mousePressed` (lines 119-144).  A right press cancels
the pending object when one exists and is otherwise consumed.  A press of any
other non-left button is delegated to the base handler.  A left press looks
up the current object group; when it is null or not visible the press is
consumed.  Otherwise the press position, adjusted by the group's total
offset, is inverse-transformed and snapped, `startNewMapObject` is attempted,
and on success an immediate `mouseMovedWhileCreatingObject` follows at the
same (offset-adjusted) position. -/
def mousePressed (env : Env) (pos : Point) (button : Button)
    (modifiers : Modifiers) (t : ToolState) (d : MapDocument) : StepResult :=
  if button = Button.right then
    if t.mNewMapObjectItem.isSome then
      unchanged (cancelNewMapObject t) d false
    else
      unchanged t d false
  else if button ≠ Button.left then
    unchanged t d true
  else
    match d.currentObjectGroup with
    | none => unchanged t d false
    | some (_, objectGroup) =>
      if !objectGroup.visible then
        unchanged t d false
      else
        let offsetPos := pos - objectGroup.totalOffset
        let pixelCoords := env.snap modifiers (env.screenToPixelCoords offsetPos)
        match startNewMapObject env pixelCoords objectGroup t with
        | (true, t1) =>
          unchanged (mouseMovedWhileCreatingObject env offsetPos modifiers t1) d false
        | (false, t1) => unchanged t1 d false

/-- `CreateObjectTool::mouseReleased` (lines 149-153): the button is ignored;
any release while a pending object exists finishes it. -/
def mouseReleased (t : ToolState) (d : MapDocument) : StepResult :=
  if t.mNewMapObjectItem.isSome then
    let p := finishNewMapObject t d
    unchanged p.1 p.2 false
  else
    unchanged t d false

/-- `CreateObjectTool::mouseMoved` (lines 104-113): always forwards to the
base handler first; when a pending object exists, continues with
`mouseMovedWhileCreatingObject` at the position adjusted by the pending
object's group's (the staging group's) total offset. -/
def mouseMoved (env : Env) (pos : Point) (modifiers : Modifiers)
    (t : ToolState) (d : MapDocument) : StepResult :=
  if t.mNewMapObjectItem.isSome then
    let offset := t.mNewMapObjectGroup.totalOffset
    unchanged (mouseMovedWhileCreatingObject env (pos - offset) modifiers t) d true
  else
    unchanged t d true

/-- `CreateObjectTool::keyPressed` (lines 77-98): Enter / Return finish the
pending object when one exists (otherwise fall through to the base handler);
Escape cancels the pending object when one exists and otherwise switches to
the object selection tool; every other key goes to the base handler. -/
def keyPressed (k : Key) (t : ToolState) (d : MapDocument) : StepResult :=
  match k with
  | Key.enter | Key.ret =>
    if t.mNewMapObjectItem.isSome then
      let p := finishNewMapObject t d
      unchanged p.1 p.2 false
    else
      unchanged t d true
  | Key.escape =>
    if t.mNewMapObjectItem.isSome then
      unchanged (cancelNewMapObject t) d false
    else
      { tool := t, doc := d, delegated := false, toolSwitched := true }
  | Key.other _ => unchanged t d true

/-- `CreateObjectTool::deactivate` (lines 68-75): cancels the pending object
when one exists, removes the group item from the scene, and calls the base
handler. -/
def deactivateTool (t : ToolState) (d : MapDocument) : StepResult :=
  if t.mNewMapObjectItem.isSome then
    unchanged (cancelNewMapObject t) d true
  else
    unchanged t d true

/-- Dispatch one event to the matching handler. -/
def handleEvent (env : Env) (e : Event) (t : ToolState) (d : MapDocument) :
    StepResult :=
  match e with
  | Event.mousePress pos button modifiers => mousePressed env pos button modifiers t d
  | Event.mouseMove pos modifiers => mouseMoved env pos modifiers t d
  | Event.mouseRelease _ _ => mouseReleased t d
  | Event.keyPress k => keyPressed k t d
  | Event.deactivate => deactivateTool t d
  | Event.setCurrentLayer i => unchanged t { d with current := i } false

/-- One step on a (tool, document) pair. -/
def stepTD (env : Env) (s : ToolState × MapDocument) (e : Event) :
    ToolState × MapDocument :=
  let r := handleEvent env e s.1 s.2
  (r.tool, r.doc)

/-- Run a sequence of events. -/
def runEvents (env : Env) (s : ToolState × MapDocument) (es : List Event) :
    ToolState × MapDocument :=
  es.foldl (stepTD env) s

/-- The staging-group invariant: the staging group's object list is empty
when no visual proxy exists, and holds exactly the pending object when one
does. -/
def ToolState.wf (t : ToolState) : Prop :=
  match t.mNewMapObjectItem with
  | none => t.mNewMapObjectGroup.objects = []
  | some obj => t.mNewMapObjectGroup.objects = [obj]

/-- The document's persistent content: layers, tilesets, undo history and
selection (the active-layer index is a UI cursor, not persistent content). -/
def persistentState (d : MapDocument) :
    List ObjectGroup × List Nat × List UndoCommand × List MapObject :=
  (d.objectGroups, d.tilesets, d.undoStack, d.selectedObjects)

/-- Predicate for the events whose handling cancels a pending object:
Escape, a right press, and tool deactivation. -/
def isCancelEvent (e : Event) : Prop :=
  e = Event.keyPress Key.escape ∨
  (∃ p m, e = Event.mousePress p Button.right m) ∨
  e = Event.deactivate

/-- All intermediate states along an event list keep a pending object. -/
def placingAlong (env : Env) : ToolState × MapDocument → List Event → Prop
  | _, [] => True
  | s, e :: es =>
    (stepTD env s e).1.mNewMapObjectItem.isSome = true ∧
    placingAlong env (stepTD env s e) es

/-- A concrete environment: identity transform and snap, and a subclass hook
producing an object whose cell references tileset 7. -/
def sampleEnv : Env :=
  { screenToPixelCoords := fun p => p
    snap := fun _ p => p
    createNewMapObject := some { pos := ⟨0, 0⟩, cellTileset := some 7 } }

/-- A concrete pending object. -/
def sampleObj : MapObject := { pos := ⟨0, 0⟩, cellTileset := some 7 }

/-- A concrete unlocked, visible target layer. -/
def sampleGroup : ObjectGroup :=
  { objects := [], color := 1, offset := ⟨0, 0⟩, visible := true, unlocked := true }

/-- A concrete document whose active layer is `sampleGroup`. -/
def sampleDoc : MapDocument :=
  { objectGroups := [sampleGroup], current := some 0, tilesets := []
    undoStack := [], selectedObjects := [] }

/-- A concrete tool state in the Placing state, holding `sampleObj`. -/
def samplePlacing : ToolState :=
  { mNewMapObjectItem := some sampleObj
    mNewMapObjectGroup :=
      { objects := [sampleObj], color := 1, offset := ⟨0, 0⟩, visible := true, unlocked := true }
    mObjectGroupItemPos := ⟨0, 0⟩ }

/-- A concrete locked target layer. -/
def lockedGroup : ObjectGroup :=
  { objects := [], color := 1, offset := ⟨0, 0⟩, visible := true, unlocked := false }

/-- A concrete document whose active layer is locked. -/
def lockedDoc : MapDocument :=
  { objectGroups := [lockedGroup], current := some 0, tilesets := []
    undoStack := [], selectedObjects := [] }

/-- A concrete document with no valid active layer. -/
def noLayerDoc : MapDocument :=
  { objectGroups := [sampleGroup], current := none, tilesets := []
    undoStack := [], selectedObjects := [] }

/-- A concrete document that already contains tileset 7. -/
def tilesetDoc : MapDocument :=
  { objectGroups := [sampleGroup], current := some 0, tilesets := [7]
    undoStack := [], selectedObjects := [] }

theorem replace_self_eq {α : Type} [DecidableEq α] (l : List α) (a : α) :
    l.replace a a = l := by
  induction l with
  | nil => rfl
  | cons b bs ih =>
    by_cases h : b = a
    · subst h; simp [List.replace]
    · have hab : (a == b) = false := by simp [Ne.symm h]
      simp [List.replace, hab, ih]

theorem updateAt_getElem {α : Type} (l : List α) (i : Nat) (f : α → α) :
    (updateAt l i f)[i]? = (l[i]?).map f := by
  induction l generalizing i with
  | nil => simp [updateAt]
  | cons a as ih =>
    cases i with
    | zero => simp [updateAt]
    | succ n => simpa [updateAt] using ih n

theorem pushCommand_undoStack (d : MapDocument) (c : UndoCommand) :
    (pushCommand d c).undoStack = d.undoStack ++ [c] := by
  cases h : c.addTilesetChild <;> simp [pushCommand, h]

theorem pushCommand_objectGroups (d : MapDocument) (c : UndoCommand) :
    (pushCommand d c).objectGroups =
      updateAt d.objectGroups c.groupIdx
        (fun g => { g with objects := g.objects ++ [c.obj] }) := by
  cases h : c.addTilesetChild <;> simp [pushCommand, h]

theorem pushCommand_tilesets (d : MapDocument) (c : UndoCommand) :
    (pushCommand d c).tilesets =
      match c.addTilesetChild with
      | some ts => d.tilesets ++ [ts]
      | none => d.tilesets := by
  cases h : c.addTilesetChild <;> simp [pushCommand, h]

theorem currentObjectGroup_eq {d : MapDocument} {gi : Nat} {og : ObjectGroup}
    (h : d.currentObjectGroup = some (gi, og)) :
    d.current = some gi ∧ d.objectGroups[gi]? = some og := by
  unfold MapDocument.currentObjectGroup at h
  split at h
  · exact absurd h (by simp)
  · rename_i i heq
    split at h
    · exact absurd h (by simp)
    · rename_i g hg
      simp at h
      rcases h with ⟨h1, h2⟩
      subst h1
      subst h2
      exact ⟨heq, hg⟩

/-- C5: when a pending object exists but the freshly re-resolved current
object group is null, `finishNewMapObject` behaves exactly as
`cancelNewMapObject`: the pending object is destroyed, no undo command is
pushed, and the document is completely untouched. -/
theorem finish_without_target_layer_cancels (t : ToolState) (d : MapDocument)
    (obj : MapObject)
    (hitem : t.mNewMapObjectItem = some obj)
    (hcur : d.currentObjectGroup = none) :
    finishNewMapObject t d = (cancelNewMapObject t, d) ∧
    (finishNewMapObject t d).1.mNewMapObjectItem = none ∧
    (finishNewMapObject t d).2 = d := by
  refine ⟨by simp [finishNewMapObject, hitem, hcur], ?_, ?_⟩
  · simp [finishNewMapObject, hitem, hcur, cancelNewMapObject, clearNewMapObjectItem]
  · simp [finishNewMapObject, hitem, hcur]

theorem finish_without_target_layer_cancels_witness :
    finishNewMapObject samplePlacing noLayerDoc = (cancelNewMapObject samplePlacing, noLayerDoc) ∧
    (finishNewMapObject samplePlacing noLayerDoc).1.mNewMapObjectItem = none ∧
    (finishNewMapObject samplePlacing noLayerDoc).2 = noLayerDoc :=
  finish_without_target_layer_cancels samplePlacing noLayerDoc sampleObj (by rfl) (by rfl)

/-- C6: a left press against a locked or invisible current object group
leaves the tool and document completely unchanged (the press is consumed
silently), and `startNewMapObject` against a locked group always returns
`false` without side effects. -/
theorem left_press_locked_or_invisible_fails (env : Env) (pos : Point)
    (modifiers : Modifiers) (t : ToolState) (d : MapDocument)
    (gi : Nat) (og : ObjectGroup)
    (hcur : d.currentObjectGroup = some (gi, og))
    (hbad : og.unlocked = false ∨ og.visible = false) :
    mousePressed env pos Button.left modifiers t d = unchanged t d false ∧
    (og.unlocked = false → ∀ p : Point, startNewMapObject env p og t = (false, t)) := by
  constructor
  · rcases hbad with hu | hv
    · cases hvis : og.visible with
      | false => simp [mousePressed, hcur, hvis]
      | true =>
        cases hit : t.mNewMapObjectItem with
        | some o => simp [mousePressed, hcur, hvis, startNewMapObject, hit]
        | none => simp [mousePressed, hcur, hvis, startNewMapObject, hit, hu]
    · simp [mousePressed, hcur, hv]
  · intro hu p
    cases hit : t.mNewMapObjectItem with
    | some o => simp [startNewMapObject, hit]
    | none => simp [startNewMapObject, hit, hu]

theorem left_press_locked_or_invisible_fails_witness :
    mousePressed sampleEnv ⟨5, 6⟩ Button.left 0 initialTool lockedDoc =
      unchanged initialTool lockedDoc false ∧
    startNewMapObject sampleEnv ⟨1, 1⟩ lockedGroup initialTool = (false, initialTool) := by
  have h := left_press_locked_or_invisible_fails sampleEnv ⟨5, 6⟩ 0 initialTool lockedDoc
    0 lockedGroup (by rfl) (Or.inl (by rfl))
  exact ⟨h.1, h.2 (by rfl) ⟨1, 1⟩⟩

/-- C7: `mouseMovedWhileCreatingObject` sets the pending object's position to
`snap(screenToPixelCoords(position))`, is idempotent for a fixed input, and a
mouse-move event never changes the document (no history entry). -/
theorem update_position_snapped_idempotent (env : Env) (pos : Point)
    (modifiers : Modifiers) (t : ToolState) (d : MapDocument) (obj : MapObject)
    (h : t.mNewMapObjectItem = some obj) :
    (mouseMovedWhileCreatingObject env pos modifiers t).mNewMapObjectItem =
      some { obj with pos := env.snap modifiers (env.screenToPixelCoords pos) } ∧
    mouseMovedWhileCreatingObject env pos modifiers
        (mouseMovedWhileCreatingObject env pos modifiers t) =
      mouseMovedWhileCreatingObject env pos modifiers t ∧
    (handleEvent env (Event.mouseMove pos modifiers) t d).doc = d := by
  refine ⟨by simp [mouseMovedWhileCreatingObject, setPendingPosition, h], ?_, ?_⟩
  · simp [mouseMovedWhileCreatingObject, setPendingPosition, h, replace_self_eq]
  · cases hit : t.mNewMapObjectItem <;> simp [handleEvent, mouseMoved, unchanged, hit]

theorem update_position_snapped_idempotent_witness :
    (mouseMovedWhileCreatingObject sampleEnv ⟨9, 4⟩ 0 samplePlacing).mNewMapObjectItem =
      some { sampleObj with pos := ⟨9, 4⟩ } ∧
    mouseMovedWhileCreatingObject sampleEnv ⟨9, 4⟩ 0
        (mouseMovedWhileCreatingObject sampleEnv ⟨9, 4⟩ 0 samplePlacing) =
      mouseMovedWhileCreatingObject sampleEnv ⟨9, 4⟩ 0 samplePlacing ∧
    (handleEvent sampleEnv (Event.mouseMove ⟨9, 4⟩ 0) samplePlacing sampleDoc).doc = sampleDoc :=
  update_position_snapped_idempotent sampleEnv ⟨9, 4⟩ 0 samplePlacing sampleDoc sampleObj (by rfl)

/-- C8 counterexample: a right press received while no pending object exists
is consumed by `mousePressed` (early return), not delegated to the base
`AbstractObjectTool::mousePressed`, refuting the claimed delegation. -/
theorem right_press_idle_not_delegated_counterexample :
    ¬ ((handleEvent sampleEnv (Event.mousePress ⟨0, 0⟩ Button.right 0)
          initialTool sampleDoc).delegated = true) := by
  decide

/-- C8 amended: a right press received while no pending object exists is
consumed without delegation to base handling, and the tool and document are
left completely unchanged (the tool remains Idle). -/
theorem right_press_idle_consumed (env : Env) (pos : Point)
    (modifiers : Modifiers) (t : ToolState) (d : MapDocument)
    (h : t.mNewMapObjectItem = none) :
    handleEvent env (Event.mousePress pos Button.right modifiers) t d =
      unchanged t d false := by
  simp [handleEvent, mousePressed, h]

theorem right_press_idle_consumed_witness :
    handleEvent sampleEnv (Event.mousePress ⟨2, 3⟩ Button.right 0) initialTool sampleDoc =
      unchanged initialTool sampleDoc false :=
  right_press_idle_consumed sampleEnv ⟨2, 3⟩ 0 initialTool sampleDoc (by rfl)

/-- C9 counterexample: `mouseReleased` ignores which button was released: a
middle-button release while a pending object exists also triggers the finish
pipeline and pushes an undo entry, refuting the claim that only a left
release finishes. -/
theorem middle_release_triggers_finish_counterexample :
    (handleEvent sampleEnv (Event.mouseRelease ⟨0, 0⟩ Button.middle)
        samplePlacing sampleDoc).doc.undoStack.length =
      sampleDoc.undoStack.length + 1 ∧
    (handleEvent sampleEnv (Event.mouseRelease ⟨0, 0⟩ Button.middle)
        samplePlacing sampleDoc).tool.mNewMapObjectItem = none := by
  decide

/-- C9 amended: while a pending object exists, a release of any mouse button
(the handler never inspects the button) triggers `finishNewMapObject`; in
particular a left release does. -/
theorem any_release_while_placing_finishes (env : Env) (pos : Point)
    (b : Button) (t : ToolState) (d : MapDocument)
    (h : t.mNewMapObjectItem.isSome = true) :
    handleEvent env (Event.mouseRelease pos b) t d =
      unchanged (finishNewMapObject t d).1 (finishNewMapObject t d).2 false := by
  simp [handleEvent, mouseReleased, h]

theorem any_release_while_placing_finishes_witness :
    handleEvent sampleEnv (Event.mouseRelease ⟨0, 0⟩ Button.left) samplePlacing sampleDoc =
      unchanged (finishNewMapObject samplePlacing sampleDoc).1
        (finishNewMapObject samplePlacing sampleDoc).2 false :=
  any_release_while_placing_finishes sampleEnv ⟨0, 0⟩ Button.left samplePlacing sampleDoc (by rfl)

theorem finish_success_eq (t : ToolState) (d : MapDocument)
    (obj : MapObject) (gi : Nat) (og : ObjectGroup)
    (hitem : t.mNewMapObjectItem = some obj)
    (hcur : d.currentObjectGroup = some (gi, og)) :
    finishNewMapObject t d =
      ({ t with
           mNewMapObjectItem := none
           mNewMapObjectGroup :=
             { t.mNewMapObjectGroup with
                 objects := t.mNewMapObjectGroup.objects.erase obj } },
       { pushCommand d
           { groupIdx := gi, obj := obj
             addTilesetChild :=
               match obj.cellTileset with
               | some ts => if d.tilesets.contains ts then none else some ts
               | none => none }
         with selectedObjects := [obj] }) := by
  simp [finishNewMapObject, hitem, hcur, clearNewMapObjectItem]

/-- C1: a successful finish (pending object present, freshly re-resolved
current object group non-null) pushes exactly one new entry (the composite
insert-object command carrying the new object) onto the undo history, sets
the document selection to exactly the new object, and leaves no pending
object. -/
theorem finish_pushes_one_entry_and_selects (t : ToolState) (d : MapDocument)
    (obj : MapObject) (gi : Nat) (og : ObjectGroup)
    (hitem : t.mNewMapObjectItem = some obj)
    (hcur : d.currentObjectGroup = some (gi, og)) :
    (∃ c : UndoCommand,
       (finishNewMapObject t d).2.undoStack = d.undoStack ++ [c] ∧ c.obj = obj) ∧
    (finishNewMapObject t d).2.undoStack.length = d.undoStack.length + 1 ∧
    (finishNewMapObject t d).2.selectedObjects = [obj] ∧
    (finishNewMapObject t d).1.mNewMapObjectItem = none := by
  rw [finish_success_eq t d obj gi og hitem hcur]
  refine ⟨⟨_, pushCommand_undoStack d _, rfl⟩, ?_, rfl, rfl⟩
  simp [pushCommand_undoStack]

theorem finish_pushes_one_entry_and_selects_witness :
    (∃ c : UndoCommand,
       (finishNewMapObject samplePlacing sampleDoc).2.undoStack =
         sampleDoc.undoStack ++ [c] ∧ c.obj = sampleObj) ∧
    (finishNewMapObject samplePlacing sampleDoc).2.undoStack.length =
      sampleDoc.undoStack.length + 1 ∧
    (finishNewMapObject samplePlacing sampleDoc).2.selectedObjects = [sampleObj] ∧
    (finishNewMapObject samplePlacing sampleDoc).1.mNewMapObjectItem = none :=
  finish_pushes_one_entry_and_selects samplePlacing sampleDoc sampleObj 0 sampleGroup
    (by rfl) (by rfl)

/-- C4: at commit time, when the committed object's cell references a tileset
absent from the document's tileset collection, the pushed composite command
nests an add-tileset sub-command for it and the tileset ends up in the
document exactly once; when the tileset is already present, no sub-command is
nested and the tileset collection is unchanged (no duplicate). -/
theorem finish_nests_tileset_dependency (t : ToolState) (d : MapDocument)
    (obj : MapObject) (gi : Nat) (og : ObjectGroup) (ts : Nat)
    (hitem : t.mNewMapObjectItem = some obj)
    (hcur : d.currentObjectGroup = some (gi, og))
    (hts : obj.cellTileset = some ts) :
    (ts ∉ d.tilesets →
       ∃ c : UndoCommand,
         (finishNewMapObject t d).2.undoStack = d.undoStack ++ [c] ∧
         c.addTilesetChild = some ts ∧
         (finishNewMapObject t d).2.tilesets = d.tilesets ++ [ts] ∧
         ((finishNewMapObject t d).2.tilesets).count ts = 1) ∧
    (ts ∈ d.tilesets →
       ∃ c : UndoCommand,
         (finishNewMapObject t d).2.undoStack = d.undoStack ++ [c] ∧
         c.addTilesetChild = none ∧
         (finishNewMapObject t d).2.tilesets = d.tilesets) := by
  rw [finish_success_eq t d obj gi og hitem hcur]
  constructor
  · intro hmem
    refine ⟨_, pushCommand_undoStack d _, ?_, ?_, ?_⟩
    · simp [hts, hmem]
    · simp [pushCommand_tilesets, hts, hmem]
    · simp [pushCommand_tilesets, hts, hmem, List.count_append,
        List.count_eq_zero.mpr hmem]
  · intro hmem
    refine ⟨_, pushCommand_undoStack d _, ?_, ?_⟩
    · simp [hts, hmem]
    · simp [pushCommand_tilesets, hts, hmem]

theorem finish_nests_tileset_dependency_witness :
    (∃ c : UndoCommand,
       (finishNewMapObject samplePlacing sampleDoc).2.undoStack =
         sampleDoc.undoStack ++ [c] ∧
       c.addTilesetChild = some 7 ∧
       (finishNewMapObject samplePlacing sampleDoc).2.tilesets =
         sampleDoc.tilesets ++ [7] ∧
       ((finishNewMapObject samplePlacing sampleDoc).2.tilesets).count 7 = 1) ∧
    (∃ c : UndoCommand,
       (finishNewMapObject samplePlacing tilesetDoc).2.undoStack =
         tilesetDoc.undoStack ++ [c] ∧
       c.addTilesetChild = none ∧
       (finishNewMapObject samplePlacing tilesetDoc).2.tilesets =
         tilesetDoc.tilesets) :=
  ⟨(finish_nests_tileset_dependency samplePlacing sampleDoc sampleObj 0 sampleGroup 7
      (by rfl) (by rfl) (by rfl)).1 (by decide),
   (finish_nests_tileset_dependency samplePlacing tilesetDoc sampleObj 0 sampleGroup 7
      (by rfl) (by rfl) (by rfl)).2 (by decide)⟩

/-- C10: finish re-validates only that the freshly resolved current object
group is non-null; even when that group is locked or invisible, finish still
pushes the insert command and commits the object into the group. -/
theorem finish_revalidates_only_nullness (t : ToolState) (d : MapDocument)
    (obj : MapObject) (gi : Nat) (og : ObjectGroup)
    (hitem : t.mNewMapObjectItem = some obj)
    (hcur : d.currentObjectGroup = some (gi, og))
    (_hbad : og.unlocked = false ∨ og.visible = false) :
    (finishNewMapObject t d).2.undoStack.length = d.undoStack.length + 1 ∧
    ((finishNewMapObject t d).2.objectGroups)[gi]? =
      some { og with objects := og.objects ++ [obj] } ∧
    (finishNewMapObject t d).1.mNewMapObjectItem = none := by
  rw [finish_success_eq t d obj gi og hitem hcur]
  refine ⟨by simp [pushCommand_undoStack], ?_, rfl⟩
  have hog := (currentObjectGroup_eq hcur).2
  simp [pushCommand_objectGroups, updateAt_getElem, hog]

theorem finish_revalidates_only_nullness_witness :
    (finishNewMapObject samplePlacing lockedDoc).2.undoStack.length =
      lockedDoc.undoStack.length + 1 ∧
    ((finishNewMapObject samplePlacing lockedDoc).2.objectGroups)[0]? =
      some { lockedGroup with objects := lockedGroup.objects ++ [sampleObj] } ∧
    (finishNewMapObject samplePlacing lockedDoc).1.mNewMapObjectItem = none :=
  finish_revalidates_only_nullness samplePlacing lockedDoc sampleObj 0 lockedGroup
    (by rfl) (by rfl) (Or.inl (by rfl))

theorem wf_cancel (t : ToolState) (h : t.wf) : (cancelNewMapObject t).wf := by
  unfold ToolState.wf at h ⊢
  cases hit : t.mNewMapObjectItem with
  | none =>
    rw [hit] at h
    simpa [cancelNewMapObject, clearNewMapObjectItem, hit] using h
  | some obj =>
    rw [hit] at h
    simp [cancelNewMapObject, clearNewMapObjectItem, hit, h]

theorem wf_setPendingPosition (t : ToolState) (p : Point) (h : t.wf) :
    (setPendingPosition t p).wf := by
  unfold ToolState.wf at h ⊢
  cases hit : t.mNewMapObjectItem with
  | none =>
    rw [hit] at h
    simpa [setPendingPosition, hit] using h
  | some obj =>
    rw [hit] at h
    simp [setPendingPosition, hit, h, List.replace]

theorem wf_mouseMovedWhile (env : Env) (pos : Point) (modifiers : Modifiers)
    (t : ToolState) (h : t.wf) :
    (mouseMovedWhileCreatingObject env pos modifiers t).wf :=
  wf_setPendingPosition t _ h

theorem wf_start (env : Env) (pos : Point) (og : ObjectGroup) (t : ToolState)
    (h : t.wf) : ((startNewMapObject env pos og t).2).wf := by
  unfold ToolState.wf at h ⊢
  cases hit : t.mNewMapObjectItem with
  | some obj =>
    rw [hit] at h
    simpa [startNewMapObject, hit] using h
  | none =>
    rw [hit] at h
    cases hu : og.unlocked with
    | false => simpa [startNewMapObject, hit, hu] using h
    | true =>
      cases hcr : env.createNewMapObject with
      | none => simpa [startNewMapObject, hit, hu, hcr] using h
      | some newObj => simp [startNewMapObject, hit, hu, hcr, h]

theorem wf_start_pair {env : Env} {p : Point} {og : ObjectGroup} {t : ToolState}
    {b : Bool} {t1 : ToolState}
    (heq : startNewMapObject env p og t = (b, t1)) (h : t.wf) : t1.wf := by
  have h3 := wf_start env p og t h
  rw [heq] at h3
  exact h3

theorem wf_finish (t : ToolState) (d : MapDocument) (h : t.wf) :
    ((finishNewMapObject t d).1).wf := by
  unfold ToolState.wf at h ⊢
  cases hit : t.mNewMapObjectItem with
  | none =>
    rw [hit] at h
    simpa [finishNewMapObject, hit] using h
  | some obj =>
    rw [hit] at h
    cases hcur : d.currentObjectGroup with
    | none =>
      simp [finishNewMapObject, hit, hcur, cancelNewMapObject,
        clearNewMapObjectItem, h]
    | some pr =>
      obtain ⟨gi, og⟩ := pr
      simp [finishNewMapObject, hit, hcur, clearNewMapObjectItem, h]

theorem wf_mousePressed (env : Env) (pos : Point) (button : Button)
    (modifiers : Modifiers) (t : ToolState) (d : MapDocument) (h : t.wf) :
    (mousePressed env pos button modifiers t d).tool.wf := by
  simp only [mousePressed, unchanged]
  split
  · split
    · exact wf_cancel t h
    · exact h
  · split
    · exact h
    · split
      · exact h
      · split
        · exact h
        · split
          · rename_i heq
            exact wf_mouseMovedWhile _ _ _ _ (wf_start_pair heq h)
          · rename_i heq
            exact wf_start_pair heq h

theorem wf_handleEvent (env : Env) (e : Event) (t : ToolState) (d : MapDocument)
    (h : t.wf) : (handleEvent env e t d).tool.wf := by
  cases e with
  | mousePress pos button modifiers => exact wf_mousePressed env pos button modifiers t d h
  | mouseMove pos modifiers =>
    simp only [handleEvent, mouseMoved, unchanged]
    split
    · exact wf_mouseMovedWhile _ _ _ _ h
    · exact h
  | mouseRelease pos button =>
    simp only [handleEvent, mouseReleased, unchanged]
    split
    · exact wf_finish t d h
    · exact h
  | keyPress k =>
    cases k with
    | enter =>
      simp only [handleEvent, keyPressed, unchanged]
      split
      · exact wf_finish t d h
      · exact h
    | ret =>
      simp only [handleEvent, keyPressed, unchanged]
      split
      · exact wf_finish t d h
      · exact h
    | escape =>
      simp only [handleEvent, keyPressed, unchanged]
      split
      · exact wf_cancel t h
      · exact h
    | other code => exact h
  | deactivate =>
    simp only [handleEvent, deactivateTool, unchanged]
    split
    · exact wf_cancel t h
    · exact h
  | setCurrentLayer i => exact h

theorem wf_runEvents (env : Env) (es : List Event) (s : ToolState × MapDocument)
    (h : s.1.wf) : (runEvents env s es).1.wf := by
  induction es generalizing s with
  | nil => exact h
  | cons e es ih => exact ih (stepTD env s e) (wf_handleEvent env e s.1 s.2 h)

theorem wf_initial : initialTool.wf := by
  simp [initialTool, ToolState.wf]

theorem wf_length_le_one (t : ToolState) (h : t.wf) :
    t.mNewMapObjectGroup.objects.length ≤ 1 := by
  unfold ToolState.wf at h
  cases hit : t.mNewMapObjectItem with
  | none => rw [hit] at h; simp [h]
  | some obj => rw [hit] at h; simp [h]

/-- C2: after any sequence of events handled by the tool starting from the
constructed state, the staging group holds at most one in-progress object;
and `startNewMapObject` called while a pending object already exists fails
(returns `false`) with no state change. -/
theorem staging_at_most_one_and_start_guarded (env : Env) (d0 : MapDocument)
    (es : List Event) :
    (runEvents env (initialTool, d0) es).1.mNewMapObjectGroup.objects.length ≤ 1 ∧
    (∀ (p : Point) (og : ObjectGroup) (t : ToolState),
       t.mNewMapObjectItem.isSome = true →
       startNewMapObject env p og t = (false, t)) := by
  constructor
  · exact wf_length_le_one _ (wf_runEvents env es (initialTool, d0) wf_initial)
  · intro p og t hsome
    simp [startNewMapObject, hsome]

theorem staging_at_most_one_and_start_guarded_witness :
    (runEvents sampleEnv (initialTool, sampleDoc)
        [Event.mousePress ⟨3, 4⟩ Button.left 0]).1.mNewMapObjectGroup.objects.length ≤ 1 ∧
    startNewMapObject sampleEnv ⟨1, 2⟩ sampleGroup samplePlacing = (false, samplePlacing) :=
  ⟨(staging_at_most_one_and_start_guarded sampleEnv sampleDoc
      [Event.mousePress ⟨3, 4⟩ Button.left 0]).1,
   (staging_at_most_one_and_start_guarded sampleEnv sampleDoc []).2 ⟨1, 2⟩ sampleGroup
      samplePlacing (by rfl)⟩

theorem finish_clears_item (t : ToolState) (d : MapDocument)
    (hit : t.mNewMapObjectItem.isSome = true) :
    ((finishNewMapObject t d).1).mNewMapObjectItem = none := by
  cases hito : t.mNewMapObjectItem with
  | none => rw [hito] at hit; simp at hit
  | some obj =>
    cases hcur : d.currentObjectGroup with
    | none =>
      simp [finishNewMapObject, hito, hcur, cancelNewMapObject, clearNewMapObjectItem]
    | some pr =>
      obtain ⟨gi, og⟩ := pr
      simp [finishNewMapObject, hito, hcur, clearNewMapObjectItem]

theorem mousePressed_doc (env : Env) (pos : Point) (button : Button)
    (modifiers : Modifiers) (t : ToolState) (d : MapDocument) :
    (mousePressed env pos button modifiers t d).doc = d := by
  simp only [mousePressed, unchanged]
  split
  · split <;> rfl
  · split
    · rfl
    · split
      · rfl
      · split
        · rfl
        · split <;> rfl

theorem persistent_handleEvent_of_placing (env : Env) (e : Event)
    (t : ToolState) (d : MapDocument)
    (h : (handleEvent env e t d).tool.mNewMapObjectItem.isSome = true) :
    persistentState (handleEvent env e t d).doc = persistentState d := by
  cases e with
  | mousePress pos button modifiers =>
    rw [show (handleEvent env (Event.mousePress pos button modifiers) t d).doc =
      d from mousePressed_doc env pos button modifiers t d]
  | mouseMove pos modifiers =>
    cases hito : t.mNewMapObjectItem <;>
      simp [handleEvent, mouseMoved, unchanged, hito]
  | mouseRelease pos button =>
    cases hito : t.mNewMapObjectItem with
    | none => simp [handleEvent, mouseReleased, unchanged, hito]
    | some obj =>
      exfalso
      have hnone := finish_clears_item t d (by simp [hito])
      simp [handleEvent, mouseReleased, unchanged, hito, hnone] at h
  | keyPress k =>
    cases k with
    | enter =>
      cases hito : t.mNewMapObjectItem with
      | none => simp [handleEvent, keyPressed, unchanged, hito]
      | some obj =>
        exfalso
        have hnone := finish_clears_item t d (by simp [hito])
        simp [handleEvent, keyPressed, unchanged, hito, hnone] at h
    | ret =>
      cases hito : t.mNewMapObjectItem with
      | none => simp [handleEvent, keyPressed, unchanged, hito]
      | some obj =>
        exfalso
        have hnone := finish_clears_item t d (by simp [hito])
        simp [handleEvent, keyPressed, unchanged, hito, hnone] at h
    | escape =>
      cases hito : t.mNewMapObjectItem <;>
        simp [handleEvent, keyPressed, unchanged, hito]
    | other code => simp [handleEvent, keyPressed, unchanged]
  | deactivate =>
    cases hito : t.mNewMapObjectItem <;>
      simp [handleEvent, deactivateTool, unchanged, hito]
  | setCurrentLayer i => simp [handleEvent, unchanged, persistentState]

theorem cancel_event_step (env : Env) (e : Event) (t : ToolState)
    (d : MapDocument)
    (hit : t.mNewMapObjectItem.isSome = true) (he : isCancelEvent e) :
    persistentState (handleEvent env e t d).doc = persistentState d ∧
    (handleEvent env e t d).tool.mNewMapObjectItem = none := by
  obtain ⟨obj, hito⟩ : ∃ o, t.mNewMapObjectItem = some o := by
    cases hh : t.mNewMapObjectItem with
    | none => rw [hh] at hit; simp at hit
    | some o => exact ⟨o, rfl⟩
  rcases he with he | ⟨p, m, he⟩ | he <;> subst he
  · simp [handleEvent, keyPressed, hito, unchanged, cancelNewMapObject,
      clearNewMapObjectItem]
  · simp [handleEvent, mousePressed, hito, unchanged, cancelNewMapObject,
      clearNewMapObjectItem]
  · simp [handleEvent, deactivateTool, hito, unchanged, cancelNewMapObject,
      clearNewMapObjectItem]

theorem placing_run_preserves (env : Env) (es : List Event)
    (s : ToolState × MapDocument)
    (hs : s.1.mNewMapObjectItem.isSome = true)
    (h : placingAlong env s es) :
    (runEvents env s es).1.mNewMapObjectItem.isSome = true ∧
    persistentState (runEvents env s es).2 = persistentState s.2 := by
  induction es generalizing s with
  | nil => exact ⟨hs, rfl⟩
  | cons e es ih =>
    obtain ⟨h1, h2⟩ := h
    have hd : persistentState (stepTD env s e).2 = persistentState s.2 :=
      persistent_handleEvent_of_placing env e s.1 s.2 h1
    obtain ⟨ha, hb⟩ := ih (stepTD env s e) h1 h2
    exact ⟨ha, hb.trans hd⟩

/-- C3: any event sequence that starts a pending object, keeps it pending
through intermediate events, and ends with a cancel event (Escape, right
press, or tool deactivation) leaves the document's persistent layers,
tileset collection, undo history and selection exactly as before the start,
and destroys the pending object. -/
theorem cancel_sequence_preserves_document (env : Env) (e0 ec : Event)
    (es : List Event) (t0 : ToolState) (d0 : MapDocument)
    (_h0 : t0.mNewMapObjectItem = none)
    (h1 : (stepTD env (t0, d0) e0).1.mNewMapObjectItem.isSome = true)
    (h2 : placingAlong env (stepTD env (t0, d0) e0) es)
    (hc : isCancelEvent ec) :
    persistentState
        (stepTD env (runEvents env (stepTD env (t0, d0) e0) es) ec).2 =
      persistentState d0 ∧
    (stepTD env (runEvents env (stepTD env (t0, d0) e0) es) ec).1.mNewMapObjectItem =
      none := by
  have hfirst : persistentState (stepTD env (t0, d0) e0).2 = persistentState d0 :=
    persistent_handleEvent_of_placing env e0 t0 d0 h1
  obtain ⟨ha, hb⟩ := placing_run_preserves env es (stepTD env (t0, d0) e0) h1 h2
  obtain ⟨hc1, hc2⟩ := cancel_event_step env ec
    (runEvents env (stepTD env (t0, d0) e0) es).1
    (runEvents env (stepTD env (t0, d0) e0) es).2 ha hc
  exact ⟨(hc1.trans hb).trans hfirst, hc2⟩

theorem cancel_sequence_preserves_document_witness :
    persistentState
        (stepTD sampleEnv
          (runEvents sampleEnv
            (stepTD sampleEnv (initialTool, sampleDoc)
              (Event.mousePress ⟨3, 4⟩ Button.left 0))
            [Event.mouseMove ⟨5, 5⟩ 0])
          (Event.keyPress Key.escape)).2 =
      persistentState sampleDoc ∧
    (stepTD sampleEnv
        (runEvents sampleEnv
          (stepTD sampleEnv (initialTool, sampleDoc)
            (Event.mousePress ⟨3, 4⟩ Button.left 0))
          [Event.mouseMove ⟨5, 5⟩ 0])
        (Event.keyPress Key.escape)).1.mNewMapObjectItem = none :=
  cancel_sequence_preserves_document sampleEnv
    (Event.mousePress ⟨3, 4⟩ Button.left 0) (Event.keyPress Key.escape)
    [Event.mouseMove ⟨5, 5⟩ 0] initialTool sampleDoc (by rfl) (by decide)
    ⟨by decide, trivial⟩ (Or.inl rfl)
